import Mathlib

/-!
Verification of the multi-backend Vulkan code-generation strategies
(`vulkan_enum_to_json_header_generator.py`, `vulkan_consumer_header_generator.py`,
`vulkan_decoder_body_generator.py`, `vulkan_struct_handle_mappers_body_generator.py`)
against their natural-language specification.

The four Python strategy files are embedded shallowly: each generator's
per-run state becomes a structure, every emission loop becomes a pure
function on that state, and the emitted text is represented first as a
structured declaration (`Decl`, `Line`) and then rendered to the exact
strings the Python format templates produce.  Parts of the base-generator
layer that are not in the visible sources (registry population,
`is_flags_enum_64bit`, the common prologue/epilogue writer) are modelled
from the specification and marked as such in their doc comments.
-/

namespace GfxGen

/-- Kinds of registry entities, from the spec's data model (§3):
Command, Struct, Enum, FlagType, Handle. -/
inductive EntityKind where
  | command
  | structKind
  | enumKind
  | flagType
  | handle
deriving DecidableEq, Repr

/-- A registry entity as seen by a backend: a name together with its kind. -/
structure Entity where
  name : String
  kind : EntityKind
deriving DecidableEq, Repr

/-- One declaration emitted by `VulkanEnumToJsonHeaderGenerator.make_decls`.
Each constructor corresponds to one `write(body.format(...))` call site:
`flagMarker` is the `struct {0}_t {  };` line of the first loop (lines 123-127),
`enumMarker` the same template in the second loop (lines 129-133),
`enumToJson64` / `enumToJson` the two `FieldToJson` templates of the third
loop (lines 141 / 143), and `flagsToJson` the `FieldToJson` template of the
fourth loop (line 149).  `render` below reproduces the exact template text. -/
inductive Decl where
  | flagMarker (name : String)
  | enumMarker (name : String)
  | enumToJson64 (name : String)
  | enumToJson (name : String)
  | flagsToJson (name : String) (ty : String)
deriving DecidableEq, Repr

/-- The name of the entity a declaration was emitted for. -/
def Decl.declName : Decl → String
  | .flagMarker n => n
  | .enumMarker n => n
  | .enumToJson64 n => n
  | .enumToJson n => n
  | .flagsToJson n _ => n

/-- Exact text of each emitted declaration, following the Python format
strings of `make_decls` verbatim (braces written as escapes). -/
def Decl.render : Decl → String
  | .flagMarker n => "struct " ++ n ++ "_t \x7b \x7d;"
  | .enumMarker n => "struct " ++ n ++ "_t \x7b \x7d;"
  | .enumToJson64 n =>
      "void FieldToJson(" ++ n ++ "_t, nlohmann::ordered_json& jdata, const "
        ++ n ++ "& value, const util::JsonOptions& options = util::JsonOptions());"
  | .enumToJson n =>
      "void FieldToJson(nlohmann::ordered_json& jdata, const "
        ++ n ++ "& value, const util::JsonOptions& options = util::JsonOptions());"
  | .flagsToJson n ty =>
      "void FieldToJson(" ++ n ++ "_t, nlohmann::ordered_json& jdata, const "
        ++ ty ++ " flags, const util::JsonOptions& options = util::JsonOptions());"

/-- Whether a declaration is a marker-type struct declaration. -/
def Decl.isMarker : Decl → Bool
  | .flagMarker _ => true
  | .enumMarker _ => true
  | _ => false

/-- Whether a declaration is a `FieldToJson` serializer declaration. -/
def Decl.isSerializer : Decl → Bool
  | .enumToJson64 _ => true
  | .enumToJson _ => true
  | .flagsToJson _ _ => true
  | _ => false

/-- Whether a serializer declaration takes the disambiguation marker type
as its first parameter, read off the rendered template (the `{0}_t` first
argument of the Python format strings on lines 141 and 149). -/
def Decl.takesMarkerFirst : Decl → Bool
  | .enumToJson64 _ => true
  | .flagsToJson _ _ => true
  | _ => false

/-- Per-run state of `VulkanEnumToJsonHeaderGenerator`.  The registry-derived
collections (`flags_types`, `flags_type_aliases`, `enum_names`, `enumAliases`)
are populated by the base-generator traversal, which is outside the visible
sources; they are modelled as finite collections in incidental (container)
order: `flags_types` is the dict from flag-type name to its flags value type,
the alias fields hold the alias names (dict keys), `enum_names` is the set of
enum names.  `bit_values` models the registry's defined values per enum name
(used by the width computation).  `processedEnums` is the generator's own
dedup set, initialized empty in `__init__` (line 75). -/
structure EnumJsonState where
  flags_types : List (String × String)
  flags_type_aliases : List String
  enum_names : List String
  enumAliases : List String
  bit_values : String → List Nat
  processedEnums : List String

/-- The class attribute `SKIP_ENUM` of `VulkanEnumToJsonHeaderGenerator`
(lines 59-60): an empty list. -/
def SKIP_ENUM : List String := []

/-- Modelled from the spec: `BaseGenerator.is_flags_enum_64bit` is not in the
visible sources.  Spec §3 derives a flag's width class from the bit positions
used by its defined values: values that fit in 32 bits give the ordinary class,
a value needing more bits gives the wide (64-bit) class. -/
def is_flags_enum_64bit (s : EnumJsonState) (e : String) : Bool :=
  (s.bit_values e).any (fun v => 2 ^ 32 ≤ v)

/-- Python's `sorted` on a collection of strings: ascending lexicographic. -/
def strSort (l : List String) : List String :=
  List.insertionSort (fun a b => a ≤ b) l

/-- First loop of `make_decls` (lines 123-127): one `struct {0}_t {  };`
marker per flag-type key, skipping keys present in `flags_type_aliases`. -/
def flagMarkerDecls (s : EnumJsonState) : List Decl :=
  (strSort (s.flags_types.map Prod.fst)).filterMap fun flag =>
    if flag ∈ s.flags_type_aliases then none else some (Decl.flagMarker flag)

/-- Second loop of `make_decls` (lines 129-133): a marker for each
non-aliased enum name whose flags enum is 64-bit. -/
def enumMarkerDecls (s : EnumJsonState) : List Decl :=
  (strSort s.enum_names).filterMap fun e =>
    if e ∈ s.enumAliases then none
    else if is_flags_enum_64bit s e then some (Decl.enumMarker e) else none

/-- Third loop of `make_decls` (lines 136-144), threading the mutable
`processedEnums` set: an enum already processed (or in `SKIP_ENUM`) is
skipped; otherwise it is added to the set, and a `FieldToJson` declaration
is emitted unless the enum is an alias — with the marker first parameter
exactly when the enum is a 64-bit flags enum. -/
def enumSerLoop (s : EnumJsonState) : List String → List String → List String × List Decl
  | processed, [] => (processed, [])
  | processed, e :: rest =>
    if e ∈ processed ∨ e ∈ SKIP_ENUM then
      enumSerLoop s processed rest
    else
      let processed1 := e :: processed
      let result := enumSerLoop s processed1 rest
      if e ∈ s.enumAliases then result
      else if is_flags_enum_64bit s e then
        (result.1, Decl.enumToJson64 e :: result.2)
      else
        (result.1, Decl.enumToJson e :: result.2)

/-- Dict lookup `self.flags_types[flag]` (line 150). -/
def flagsTypeOf (s : EnumJsonState) (flag : String) : String :=
  (s.flags_types.lookup flag).getD ""

/-- Fourth loop of `make_decls` (lines 146-150): a `FieldToJson` taking the
marker first parameter for every non-aliased flag-type key. -/
def flagSerDecls (s : EnumJsonState) : List Decl :=
  (strSort (s.flags_types.map Prod.fst)).filterMap fun flag =>
    if flag ∈ s.flags_type_aliases then none
    else some (Decl.flagsToJson flag (flagsTypeOf s flag))

/-- The declarations `make_decls` writes, in order: the two marker loops,
then the enum serializer loop, then the flag serializer loop. -/
def make_decls_decls (s : EnumJsonState) : List Decl :=
  flagMarkerDecls s ++ enumMarkerDecls s
    ++ (enumSerLoop s s.processedEnums (strSort s.enum_names)).2
    ++ flagSerDecls s

/-- The generator state after `make_decls`: only `processedEnums` changes
(line 138 adds each visited enum). -/
def make_decls_state (s : EnumJsonState) : EnumJsonState :=
  { s with processedEnums := (enumSerLoop s s.processedEnums (strSort s.enum_names)).1 }

/-- One line of a generated artifact.  `includeLine`/`blank` come from the
`write(...)`/`newline()` calls of the generators; `nsOpen`/`nsClose` are the
`GFXRECON_BEGIN_NAMESPACE` / `GFXRECON_END_NAMESPACE` lines; `declLine` wraps
an enum-serializer declaration; `decodeRoutine`, `dispatchFunction` and
`structMapper` stand for the blocks the Khronos-layer emitters produce
(modelled from the spec where their bodies are outside the visible sources). -/
inductive Line where
  | includeLine (path : String)
  | blank
  | nsOpen (ns : String)
  | nsClose (ns : String)
  | declLine (d : Decl)
  | decodeRoutine (cmd : String)
  | dispatchFunction (cmds : List String)
  | structMapper (st : String)
deriving DecidableEq, Repr

/-- `VulkanEnumToJsonHeaderGenerator.beginFile` (lines 79-96): writes the two
fixed includes, then the common API headers (the base-generator helper
`write_includes_of_common_api_headers` is outside the visible sources and is
modelled from spec §4.5 as one include per common header), a blank line, and
the two namespace openings.  It does not touch `processedEnums`. -/
def enumJson_beginFile (commonHeaders : List String) (s : EnumJsonState) :
    EnumJsonState × List Line :=
  (s,
    [Line.includeLine "format/platform_types.h",
     Line.includeLine "util/json_util.h", Line.blank]
    ++ commonHeaders.map Line.includeLine
    ++ [Line.blank, Line.nsOpen "gfxrecon", Line.nsOpen "decode"])

/-- `VulkanEnumToJsonHeaderGenerator.endFile` (lines 100-113): a blank line,
the `make_decls` declarations (with the interior blank line of line 135
between the marker loops and the serializer loops), a blank line, then the
namespace closings in reverse order of the openings. -/
def enumJson_endFile (s : EnumJsonState) : EnumJsonState × List Line :=
  (make_decls_state s,
    [Line.blank]
    ++ ((flagMarkerDecls s ++ enumMarkerDecls s).map Line.declLine)
    ++ [Line.blank]
    ++ (((enumSerLoop s s.processedEnums (strSort s.enum_names)).2
          ++ flagSerDecls s).map Line.declLine)
    ++ [Line.blank, Line.nsClose "decode", Line.nsClose "gfxrecon"])

/-- One full generation run of the Enum Serializer backend on its current
state: `beginFile` followed by `endFile`, yielding the final generator state
and the artifact's lines. -/
def enumJson_run (commonHeaders : List String) (s : EnumJsonState) :
    EnumJsonState × List Line :=
  let b := enumJson_beginFile commonHeaders s
  let e := enumJson_endFile b.1
  (e.1, b.2 ++ e.2)

/-- `VulkanEnumToJsonHeaderGenerator.__init__` (lines 62-75): every
registry-derived collection starts empty and `processedEnums` is set to the
empty set. -/
def enumJsonInit : EnumJsonState :=
  { flags_types := [], flags_type_aliases := [], enum_names := [],
    enumAliases := [], bit_values := fun _ => [], processedEnums := [] }

/-- Modelled from the spec: the base-generator traversal (outside the visible
sources) fills the registry-derived collections of the generator between
`beginFile` and `endFile`; nothing in the visible generator code writes to
`processedEnums` outside `__init__` and `make_decls`, so traversal leaves it
unchanged. -/
def setRegistry (s : EnumJsonState) (ft : List (String × String))
    (fa en ea : List String) (bv : String → List Nat) : EnumJsonState :=
  { flags_types := ft, flags_type_aliases := fa, enum_names := en,
    enumAliases := ea, bit_values := bv, processedEnums := s.processedEnums }

/-- Modelled from the spec: the base generator populates the per-feature
`feature_struct_members` table from the Struct entities of the current
feature/extension delta. -/
def feature_struct_members (delta : List Entity) : List Entity :=
  delta.filter (fun e => e.kind == EntityKind.structKind)

/-- Modelled from the spec: the base generator populates the per-feature
`feature_cmd_params` table from the Command entities of the current
feature/extension delta. -/
def feature_cmd_params (delta : List Entity) : List Entity :=
  delta.filter (fun e => e.kind == EntityKind.command)

/-- `VulkanEnumToJsonHeaderGenerator.need_feature_generation` (lines 117-120):
true exactly when the feature's struct-member table is truthy (non-empty). -/
def enumJson_need_feature_generation (delta : List Entity) : Bool :=
  !(feature_struct_members delta).isEmpty

/-- `VulkanConsumerHeaderGenerator.need_feature_generation` (lines 105-108):
true exactly when `feature_cmd_params` is truthy (non-empty). -/
def consumerHeader_need_feature_generation (delta : List Entity) : Bool :=
  !(feature_cmd_params delta).isEmpty

/-- `VulkanDecoderBodyGenerator.need_feature_generation` (lines 103-107):
true exactly when `feature_cmd_params` is truthy (non-empty). -/
def decoderBody_need_feature_generation (delta : List Entity) : Bool :=
  !(feature_cmd_params delta).isEmpty

/-- `VulkanStructHandleMappersBodyGenerator.beginFile` (lines 75-102): the
fixed include lines with their blank separators, then the two namespace
openings. -/
def shm_beginFile : List Line :=
  [Line.includeLine "generated/generated_vulkan_struct_handle_mappers.h",
   Line.blank,
   Line.includeLine "decode/custom_vulkan_struct_decoders.h",
   Line.includeLine "decode/handle_pointer_decoder.h",
   Line.includeLine "decode/vulkan_handle_mapping_util.h",
   Line.includeLine "generated/generated_vulkan_struct_decoders.h",
   Line.blank,
   Line.includeLine "algorithm",
   Line.includeLine "cassert",
   Line.blank,
   Line.nsOpen "gfxrecon", Line.nsOpen "decode"]

/-- `VulkanStructHandleMappersBodyGenerator.endFile` (lines 104-113): the
struct-handle wrapper content (its emitter
`write_struct_handle_wrapper_content` is outside the visible sources and is
modelled from spec §4.4 as one handle-remapping routine per handle-bearing
struct collected during traversal), a blank line, then the namespace
closings in reverse order. -/
def shm_endFile (handleStructs : List String) : List Line :=
  handleStructs.map Line.structMapper
    ++ [Line.blank, Line.nsClose "decode", Line.nsClose "gfxrecon"]

/-- One full Struct Handle Mapper run: `beginFile` then `endFile`. -/
def shm_run (handleStructs : List String) : List Line :=
  shm_beginFile ++ shm_endFile handleStructs

/-- `VulkanDecoderBodyGenerator.endFile` (lines 90-101): a blank line, the
per-command decode routines (`generate_commands`, outside the visible
sources, modelled from spec §4.4 as one decode routine per command collected
during traversal), a blank line, the single aggregate `DecodeFunctionCall`
dispatch function built from all collected commands (`generate_decode_cases`,
modelled from spec §4.5), a blank line, and then the base-generator epilogue
(`VulkanBaseGenerator.endFile`, modelled from spec §4.5: the namespace tokens
declared by the options — gfxrecon, decode — are closed in reverse order). -/
def decoderBody_endFile (cmds : List String) : List Line :=
  [Line.blank]
  ++ cmds.map Line.decodeRoutine
  ++ [Line.blank, Line.dispatchFunction cmds, Line.blank]
  ++ [Line.nsClose "decode", Line.nsClose "gfxrecon"]

/-- The namespace name opened by a line, if any. -/
def openNsName : Line → Option String
  | .nsOpen n => some n
  | _ => none

/-- The namespace name closed by a line, if any. -/
def closeNsName : Line → Option String
  | .nsClose n => some n
  | _ => none

/-- Whether a line is the aggregate dispatch function. -/
def isDispatchLine : Line → Bool
  | .dispatchFunction _ => true
  | _ => false

/-- A reference to a Python list object used as an `extra_headers` value:
either the module-level default-argument object, or a distinct list object
supplied by the caller.  Python evaluates the `extra_headers=[]` default
expression once, at function-definition time, producing one shared list
object reused by every call that omits the argument (the `extra_headers=[]`
defaults at `vulkan_consumer_header_generator.py` line 49,
`vulkan_decoder_body_generator.py` line 41 and
`vulkan_enum_to_json_header_generator.py` line 39). -/
inductive ExtraRef where
  | defaultObj
  | freshObj (contents : List String)
deriving DecidableEq, Repr

/-- The mutable store backing the shared default list object. -/
structure PyHeap where
  defaultExtra : List String
deriving DecidableEq, Repr

/-- The heap state at module load: the `[]` default has just been evaluated,
once, to an empty list. -/
def pyHeapInit : PyHeap := { defaultExtra := [] }

/-- Constructing one of the three options objects: a call that omits
`extra_headers` binds the shared default object; a call that passes an
argument binds that object.  Modelled from the spec: the base options class
(`BaseGeneratorOptions.__init__` / `VulkanBaseGeneratorOptions.__init__`,
outside the visible sources) stores the received `extra_headers` collection
by reference on the constructed object, per spec §9's description of the
shared-mutable-default hazard these constructors exhibit. -/
def constructOptions (argument : Option ExtraRef) : ExtraRef :=
  match argument with
  | some r => r
  | none => ExtraRef.defaultObj

/-- Reading the `extra_headers` collection of an options object. -/
def readExtra (h : PyHeap) : ExtraRef → List String
  | .defaultObj => h.defaultExtra
  | .freshObj c => c

/-- Appending to the `extra_headers` collection of an options object
(e.g. `opts.extra_headers.append(x)`): mutating through a reference to the
default object updates the shared default. -/
def appendExtra (h : PyHeap) (r : ExtraRef) (x : String) : PyHeap × ExtraRef :=
  match r with
  | .defaultObj => ({ defaultExtra := h.defaultExtra ++ [x] }, .defaultObj)
  | .freshObj c => (h, .freshObj (c ++ [x]))

/-- Section index of a declaration in the `make_decls` output: flag markers,
then 64-bit flags-enum markers, then enum serializers, then flag serializers. -/
def sectionTag : Decl → Nat
  | .flagMarker _ => 0
  | .enumMarker _ => 1
  | .enumToJson64 _ => 2
  | .enumToJson _ => 2
  | .flagsToJson _ _ => 3

/-- How many declarations of any shape an output contains for a given name. -/
def emissionsFor (n : String) (out : List Decl) : Nat :=
  (out.filter (fun d => d.declName == n)).length

/-- How many serializer declarations an output contains for a given name. -/
def serializersFor (n : String) (out : List Decl) : Nat :=
  (out.filter (fun d => d.declName == n && d.isSerializer)).length

/-- How many marker-type declarations an output contains for a given name. -/
def markersFor (n : String) (out : List Decl) : Nat :=
  (out.filter (fun d => d.declName == n && d.isMarker)).length

/-- Rendering of one artifact line to text.  Lines whose emitters are outside
the visible sources (`decodeRoutine`, `dispatchFunction`, `structMapper`) are
rendered through placeholder text that is a function of their payload. -/
def renderLine : Line → String
  | .includeLine p => "#include \"" ++ p ++ "\""
  | .blank => ""
  | .nsOpen n => "GFXRECON_BEGIN_NAMESPACE(" ++ n ++ ")"
  | .nsClose n => "GFXRECON_END_NAMESPACE(" ++ n ++ ")"
  | .declLine d => d.render
  | .decodeRoutine c => "void VulkanDecoder::Decode_" ++ c ++ "(const ApiCallInfo& call_info, const uint8_t* parameter_buffer, size_t buffer_size);"
  | .dispatchFunction cmds =>
      "void VulkanDecoder::DecodeFunctionCall: " ++ String.intercalate ", " cmds
  | .structMapper st => "void MapStructHandles(Decoded_" ++ st ++ "* wrapper, const CommonObjectInfoTable& object_info_table);"

/-- The complete artifact text: the rendered lines joined by newlines. -/
def renderArtifact (lines : List Line) : String :=
  String.intercalate "\n" (lines.map renderLine)

/-- Well-formedness of the registry-derived collections, guaranteed by their
Python container types (dict keys and sets are duplicate-free) and by the
registry's kind separation (a flag-type name is never also an enum name,
spec §3's unique-name invariant). -/
structure WF (s : EnumJsonState) : Prop where
  flagKeysNodup : (s.flags_types.map Prod.fst).Nodup
  enumNodup : s.enum_names.Nodup
  flagEnumDisjoint : ∀ n, n ∈ s.flags_types.map Prod.fst → n ∉ s.enum_names
  flagAliasNotEnum : ∀ n, n ∈ s.flags_type_aliases → n ∉ s.enum_names
  enumAliasNotFlagKey : ∀ n, n ∈ s.enumAliases → n ∉ s.flags_types.map Prod.fst

/-- The flag-type keys that survive the alias filter of the first and fourth
`make_decls` loops, in emission order. -/
def flagKeyNames (s : EnumJsonState) : List String :=
  (strSort (s.flags_types.map Prod.fst)).filter fun f => !decide (f ∈ s.flags_type_aliases)

/-- The enum names that receive a marker in the second `make_decls` loop,
in emission order. -/
def enumMarkerNames (s : EnumJsonState) : List String :=
  (strSort s.enum_names).filter fun e =>
    !decide (e ∈ s.enumAliases) && is_flags_enum_64bit s e

/-- The enum names that receive a serializer in the third `make_decls` loop,
in emission order (for a run starting from an empty `processedEnums`). -/
def enumSerNames (s : EnumJsonState) : List String :=
  (strSort s.enum_names).filter fun e => !decide (e ∈ s.enumAliases)

/-- Fully evaluated sample state: a run over a registry with flag types in
one incidental order. -/
def detState1 : EnumJsonState :=
  { flags_types := [("VkBFlags", "VkFlags"), ("VkAFlags", "VkFlags")],
    flags_type_aliases := ["VkBFlags"],
    enum_names := ["VkColor", "VkShape"],
    enumAliases := [],
    bit_values := fun _ => [], processedEnums := [] }

/-- The same registry as `detState1` with every collection in a different
incidental order. -/
def detState2 : EnumJsonState :=
  { flags_types := [("VkAFlags", "VkFlags"), ("VkBFlags", "VkFlags")],
    flags_type_aliases := ["VkBFlags"],
    enum_names := ["VkShape", "VkColor"],
    enumAliases := [],
    bit_values := fun _ => [], processedEnums := [] }

/-- A concrete well-formed state exercising every `make_decls` loop: two
canonical flag types (one 64-bit) with one alias, a plain enum, a 64-bit
flags enum, and an enum alias. -/
def wfState : EnumJsonState :=
  { flags_types := [("VkZFlags", "VkFlags"), ("VkAFlags", "VkFlags"),
                    ("VkBFlags2", "VkFlags64")],
    flags_type_aliases := ["VkZFlags"],
    enum_names := ["VkColor", "VkBFlagBits2", "VkColorKHR"],
    enumAliases := ["VkColorKHR"],
    bit_values := fun e => if e == "VkBFlagBits2" then [1, 2 ^ 40] else [1, 2],
    processedEnums := [] }

/-- A state holding one ordinary (32-bit) flag type. -/
def c1State : EnumJsonState :=
  { flags_types := [("VkSampleFlags", "VkFlags")], flags_type_aliases := [],
    enum_names := [], enumAliases := [],
    bit_values := fun _ => [1, 2], processedEnums := [] }

theorem filter_kind_nonempty_iff (delta : List Entity) (k : EntityKind) :
    (!(delta.filter (fun e => e.kind == k)).isEmpty) = true ↔ ∃ e ∈ delta, e.kind = k := by
  induction delta with
  | nil => simp
  | cons h t ih =>
      by_cases hk : h.kind = k
      · simp [List.filter_cons, hk]
      · simp [List.filter_cons, hk, ih]

theorem filterMap_map_none {α : Type} (g : Line → Option String) (f : α → Line)
    (hf : ∀ a, g (f a) = none) (l : List α) : (l.map f).filterMap g = [] := by
  induction l with
  | nil => rfl
  | cons h t ih => simp [List.map_cons, List.filterMap_cons, hf, ih]

theorem filter_map_false {α : Type} (p : Line → Bool) (f : α → Line)
    (hf : ∀ a, p (f a) = false) (l : List α) : (l.map f).filter p = [] := by
  induction l with
  | nil => rfl
  | cons h t ih => simp [List.map_cons, List.filter_cons, hf, ih]

theorem openNs_includes (l : List String) :
    (l.map Line.includeLine).filterMap openNsName = [] :=
  filterMap_map_none _ _ (fun _ => rfl) l

theorem closeNs_includes (l : List String) :
    (l.map Line.includeLine).filterMap closeNsName = [] :=
  filterMap_map_none _ _ (fun _ => rfl) l

theorem openNs_decls (l : List Decl) :
    (l.map Line.declLine).filterMap openNsName = [] :=
  filterMap_map_none _ _ (fun _ => rfl) l

theorem closeNs_decls (l : List Decl) :
    (l.map Line.declLine).filterMap closeNsName = [] :=
  filterMap_map_none _ _ (fun _ => rfl) l

theorem openNs_structMappers (l : List String) :
    (l.map Line.structMapper).filterMap openNsName = [] :=
  filterMap_map_none _ _ (fun _ => rfl) l

theorem closeNs_structMappers (l : List String) :
    (l.map Line.structMapper).filterMap closeNsName = [] :=
  filterMap_map_none _ _ (fun _ => rfl) l

theorem filterMap_comp_none {α : Type} (g : Line → Option String) (f : α → Line)
    (hf : ∀ a, g (f a) = none) (l : List α) : l.filterMap (g ∘ f) = [] := by
  induction l with
  | nil => rfl
  | cons h t ih => simp [List.filterMap_cons, Function.comp, hf, ih]

theorem openNs_comp_includes (l : List String) :
    l.filterMap (openNsName ∘ Line.includeLine) = [] :=
  filterMap_comp_none _ _ (fun _ => rfl) l

theorem closeNs_comp_includes (l : List String) :
    l.filterMap (closeNsName ∘ Line.includeLine) = [] :=
  filterMap_comp_none _ _ (fun _ => rfl) l

theorem openNs_comp_decls (l : List Decl) :
    l.filterMap (openNsName ∘ Line.declLine) = [] :=
  filterMap_comp_none _ _ (fun _ => rfl) l

theorem closeNs_comp_decls (l : List Decl) :
    l.filterMap (closeNsName ∘ Line.declLine) = [] :=
  filterMap_comp_none _ _ (fun _ => rfl) l

theorem openNs_comp_structMappers (l : List String) :
    l.filterMap (openNsName ∘ Line.structMapper) = [] :=
  filterMap_comp_none _ _ (fun _ => rfl) l

theorem closeNs_comp_structMappers (l : List String) :
    l.filterMap (closeNsName ∘ Line.structMapper) = [] :=
  filterMap_comp_none _ _ (fun _ => rfl) l

/-- C2 counterexample: a feature delta holding one Enum and no Structs is
relevant to the Enum Serializer backend by the claim's criterion, yet
`need_feature_generation` (which tests `feature_struct_members`) returns
false on it. -/
theorem C2_counterexample :
    (([⟨"VkFormat", EntityKind.enumKind⟩] : List Entity).any
        (fun e => e.kind == EntityKind.enumKind || e.kind == EntityKind.flagType) = true)
    ∧ enumJson_need_feature_generation [⟨"VkFormat", EntityKind.enumKind⟩] = false := by
  decide

/-- C2 (amended): the Enum Serializer backend's `need_feature_generation`
returns true iff the feature/extension delta contains at least one Struct
(it tests the `feature_struct_members` table), not whether it contains
Enums or FlagTypes. -/
theorem C2_need_feature_generation_iff_struct (delta : List Entity) :
    enumJson_need_feature_generation delta = true
      ↔ ∃ e ∈ delta, e.kind = EntityKind.structKind :=
  filter_kind_nonempty_iff delta _

/-- C9: the Consumer Header backend's and the Decoder Body backend's
`need_feature_generation` each return true iff the feature/extension delta
contains at least one Command. -/
theorem C9_need_feature_generation_iff_command (delta : List Entity) :
    (consumerHeader_need_feature_generation delta = true
      ↔ ∃ e ∈ delta, e.kind = EntityKind.command)
    ∧ (decoderBody_need_feature_generation delta = true
      ↔ ∃ e ∈ delta, e.kind = EntityKind.command) :=
  ⟨filter_kind_nonempty_iff delta _, filter_kind_nonempty_iff delta _⟩

/-- C6: the `extra_headers=[]` defaults of the three options constructors
denote one shared list object; constructing an options object with the
default, appending one header through it, and then constructing a second
options object with the default leaves the second object holding the
mutated collection — not the unchanged empty one the claim requires. -/
theorem C6_shared_default_mutation :
    constructOptions none = ExtraRef.defaultObj
    ∧ readExtra pyHeapInit (constructOptions none) = []
    ∧ readExtra (appendExtra pyHeapInit (constructOptions none) "custom_header.h").1
        (constructOptions none) = ["custom_header.h"] := by
  decide

/-- C5 counterexample: running the Enum Serializer generator once over a
registry holding the single enum `VkResult` leaves `processedEnums` equal to
`[VkResult]`, and a second `beginFile` on the same instance does not clear
it — the second run does not start from an empty emitted set. -/
theorem C5_counterexample :
    ((enumJson_beginFile []
        (enumJson_run [] (setRegistry enumJsonInit [] [] ["VkResult"] []
          (fun _ => []))).1).1).processedEnums = ["VkResult"]
    ∧ ((enumJson_beginFile []
        (enumJson_run [] (setRegistry enumJsonInit [] [] ["VkResult"] []
          (fun _ => []))).1).1).processedEnums ≠ [] := by
  decide

/-- C5 (amended): the per-instance `processedEnums` tracking set is empty at
construction and owned by the instance, but `beginFile` never resets it: the
state at the start of a run is exactly the state left by whatever ran before
on that instance, so only a freshly constructed generator starts from an
empty emitted set. -/
theorem C5_tracking_state :
    enumJsonInit.processedEnums = []
    ∧ (∀ (ch : List String) (s : EnumJsonState),
        ((enumJson_beginFile ch s).1).processedEnums = s.processedEnums) :=
  ⟨rfl, fun _ _ => rfl⟩

/-- C7: in every run of the Enum Serializer header generator and of the
Struct Handle Mapper body generator — including runs emitting zero entities —
the artifact splits into a prologue opening the namespace tokens gfxrecon,
decode in declared order (and closing none) and a remainder closing them in
exact reverse order (and opening none). -/
theorem C7_namespace_symmetry (ch : List String) (s : EnumJsonState)
    (hs : List String) :
    (∃ pre post, (enumJson_run ch s).2 = pre ++ post
      ∧ pre.filterMap openNsName = ["gfxrecon", "decode"]
      ∧ pre.filterMap closeNsName = []
      ∧ post.filterMap openNsName = []
      ∧ post.filterMap closeNsName = ["gfxrecon", "decode"].reverse)
    ∧ (∃ pre post, shm_run hs = pre ++ post
      ∧ pre.filterMap openNsName = ["gfxrecon", "decode"]
      ∧ pre.filterMap closeNsName = []
      ∧ post.filterMap openNsName = []
      ∧ post.filterMap closeNsName = ["gfxrecon", "decode"].reverse) := by
  constructor
  · refine ⟨(enumJson_beginFile ch s).2, (enumJson_endFile s).2, rfl, ?_, ?_, ?_, ?_⟩
    · simp [enumJson_beginFile, List.filterMap_append, openNs_includes,
        openNs_comp_includes, openNsName]
    · simp [enumJson_beginFile, List.filterMap_append, closeNs_includes,
        closeNs_comp_includes, closeNsName]
    · simp [enumJson_endFile, List.filterMap_append, openNs_decls,
        openNs_comp_decls, openNsName]
    · simp [enumJson_endFile, List.filterMap_append, closeNs_decls,
        closeNs_comp_decls, closeNsName]
  · refine ⟨shm_beginFile, shm_endFile hs, rfl, ?_, ?_, ?_, ?_⟩
    · simp [shm_beginFile, openNsName]
    · simp [shm_beginFile, closeNsName]
    · simp [shm_endFile, List.filterMap_append, openNs_structMappers,
        openNs_comp_structMappers, openNsName]
    · simp [shm_endFile, List.filterMap_append, closeNs_structMappers,
        closeNs_comp_structMappers, closeNsName]

/-- C8: the Decoder Body epilogue contains exactly one aggregate
`DecodeFunctionCall` dispatch line, built from all collected commands; it
comes after every per-command decode routine and before the namespace
closings. -/
theorem C8_dispatch_epilogue (cmds : List String) :
    (decoderBody_endFile cmds).filter isDispatchLine = [Line.dispatchFunction cmds]
    ∧ ∃ pre post,
        decoderBody_endFile cmds = pre ++ Line.dispatchFunction cmds :: post
        ∧ (∀ c ∈ cmds, Line.decodeRoutine c ∈ pre)
        ∧ (∀ l ∈ pre, isDispatchLine l = false ∧ closeNsName l = none)
        ∧ post = [Line.blank, Line.nsClose "decode", Line.nsClose "gfxrecon"] := by
  constructor
  · simp [decoderBody_endFile, List.filter_append,
      filter_map_false isDispatchLine Line.decodeRoutine (fun _ => rfl),
      isDispatchLine]
  · refine ⟨[Line.blank] ++ cmds.map Line.decodeRoutine ++ [Line.blank],
      [Line.blank, Line.nsClose "decode", Line.nsClose "gfxrecon"],
      by simp [decoderBody_endFile], ?_, ?_, rfl⟩
    · intro c hc
      exact List.mem_append_right [Line.blank]
        (List.mem_append_left [Line.blank] (List.mem_map_of_mem _ hc))
    · intro l hl
      rcases List.mem_append.mp hl with hl1 | hl2
      · rcases List.mem_append.mp hl1 with hb | hm
        · simp at hb
          subst hb
          exact ⟨rfl, rfl⟩
        · rcases List.mem_map.mp hm with ⟨c, _, rfl⟩
          exact ⟨rfl, rfl⟩
      · simp at hl2
        subst hl2
        exact ⟨rfl, rfl⟩

theorem filterMap_if_mem_eq_map_filter (g : String → Decl) (A : List String)
    (l : List String) :
    (l.filterMap fun x => if x ∈ A then none else some (g x))
      = (l.filter fun x => !decide (x ∈ A)).map g := by
  induction l with
  | nil => rfl
  | cons h t ih =>
      by_cases hA : h ∈ A <;>
        simp [List.filterMap_cons, List.filter_cons, hA, ih]

theorem filterMap_if_mem_if_eq (g : String → Decl) (A : List String)
    (q : String → Bool) (l : List String) :
    (l.filterMap fun x => if x ∈ A then none else if q x then some (g x) else none)
      = (l.filter fun x => !decide (x ∈ A) && q x).map g := by
  induction l with
  | nil => rfl
  | cons h t ih =>
      by_cases hA : h ∈ A
      · simp [List.filterMap_cons, List.filter_cons, hA, ih]
      · by_cases hq : q h = true <;>
          simp [List.filterMap_cons, List.filter_cons, hA, hq, ih]

theorem flagMarkerDecls_eq (s : EnumJsonState) :
    flagMarkerDecls s = (flagKeyNames s).map Decl.flagMarker :=
  filterMap_if_mem_eq_map_filter _ _ _

theorem flagSerDecls_eq (s : EnumJsonState) :
    flagSerDecls s
      = (flagKeyNames s).map (fun f => Decl.flagsToJson f (flagsTypeOf s f)) :=
  filterMap_if_mem_eq_map_filter _ _ _

theorem enumMarkerDecls_eq (s : EnumJsonState) :
    enumMarkerDecls s = (enumMarkerNames s).map Decl.enumMarker :=
  filterMap_if_mem_if_eq _ _ _ _

theorem enumSerLoop_decls_eq (s : EnumJsonState) :
    ∀ (l processed : List String), l.Nodup → (∀ x ∈ l, x ∉ processed) →
      (enumSerLoop s processed l).2
        = (l.filter fun e => !decide (e ∈ s.enumAliases)).map
            (fun e => if is_flags_enum_64bit s e then Decl.enumToJson64 e
                      else Decl.enumToJson e) := by
  intro l
  induction l with
  | nil => intro processed _ _; rfl
  | cons e rest ih =>
      intro processed hnd hdisj
      have hcons := List.nodup_cons.mp hnd
      have he : ¬(e ∈ processed ∨ e ∈ SKIP_ENUM) := by
        simp [SKIP_ENUM]
        exact hdisj e (List.mem_cons_self e rest)
      have hrest : ∀ x ∈ rest, x ∉ e :: processed := by
        intro x hx
        simp only [List.mem_cons, not_or]
        exact ⟨fun hxe => hcons.1 (hxe ▸ hx),
               hdisj x (List.mem_cons_of_mem e hx)⟩
      have hrec := ih (e :: processed) hcons.2 hrest
      by_cases hA : e ∈ s.enumAliases
      · simp [enumSerLoop, he, hA, List.filter_cons, hrec]
      · by_cases h64 : is_flags_enum_64bit s e = true <;>
          simp [enumSerLoop, he, hA, h64, List.filter_cons, hrec]

theorem make_decls_decls_eq (s : EnumJsonState) (hnd : s.enum_names.Nodup)
    (hp : s.processedEnums = []) :
    make_decls_decls s
      = (flagKeyNames s).map Decl.flagMarker
        ++ (enumMarkerNames s).map Decl.enumMarker
        ++ (enumSerNames s).map
            (fun e => if is_flags_enum_64bit s e then Decl.enumToJson64 e
                      else Decl.enumToJson e)
        ++ (flagKeyNames s).map (fun f => Decl.flagsToJson f (flagsTypeOf s f)) := by
  have hsortnd : (strSort s.enum_names).Nodup :=
    ((List.perm_insertionSort _ s.enum_names).nodup_iff).mpr hnd
  have hloop := enumSerLoop_decls_eq s (strSort s.enum_names) s.processedEnums
    hsortnd (by intro x _; simp [hp])
  unfold make_decls_decls
  rw [flagMarkerDecls_eq, enumMarkerDecls_eq, flagSerDecls_eq, hloop]
  rfl

theorem strSort_sorted (l : List String) :
    (strSort l).Sorted (fun a b => a ≤ b) :=
  List.sorted_insertionSort _ l

theorem flagKeyNames_sorted (s : EnumJsonState) :
    (flagKeyNames s).Sorted (fun a b => a ≤ b) :=
  List.Sorted.filter _ (strSort_sorted _)

theorem enumMarkerNames_sorted (s : EnumJsonState) :
    (enumMarkerNames s).Sorted (fun a b => a ≤ b) :=
  List.Sorted.filter _ (strSort_sorted _)

theorem enumSerNames_sorted (s : EnumJsonState) :
    (enumSerNames s).Sorted (fun a b => a ≤ b) :=
  List.Sorted.filter _ (strSort_sorted _)

theorem enumSerLoop_names_sublist (s : EnumJsonState) :
    ∀ (l processed : List String),
      List.Sublist ((enumSerLoop s processed l).2.map Decl.declName) l := by
  intro l
  induction l with
  | nil => intro processed; simp [enumSerLoop]
  | cons e rest ih =>
      intro processed
      by_cases h1 : e ∈ processed ∨ e ∈ SKIP_ENUM
      · simp only [enumSerLoop, if_pos h1]
        exact (ih processed).trans (List.sublist_cons_self e rest)
      · by_cases hA : e ∈ s.enumAliases
        · simp only [enumSerLoop, if_neg h1, if_pos hA]
          exact (ih (e :: processed)).trans (List.sublist_cons_self e rest)
        · by_cases h64 : is_flags_enum_64bit s e = true
          · simp only [enumSerLoop, if_neg h1, if_neg hA, if_pos h64, List.map_cons]
            exact List.Sublist.cons₂ e (ih (e :: processed))
          · simp only [enumSerLoop, if_neg h1, if_neg hA, if_neg h64, List.map_cons]
            exact List.Sublist.cons₂ e (ih (e :: processed))

theorem enumSerLoop_tags (s : EnumJsonState) :
    ∀ (l processed : List String), ∀ d ∈ (enumSerLoop s processed l).2,
      sectionTag d = 2 := by
  intro l
  induction l with
  | nil => intro processed d hd; simp [enumSerLoop] at hd
  | cons e rest ih =>
      intro processed d hd
      by_cases h1 : e ∈ processed ∨ e ∈ SKIP_ENUM
      · rw [enumSerLoop, if_pos h1] at hd
        exact ih processed d hd
      · by_cases hA : e ∈ s.enumAliases
        · rw [enumSerLoop, if_neg h1] at hd
          simp only [if_pos hA] at hd
          exact ih (e :: processed) d hd
        · by_cases h64 : is_flags_enum_64bit s e = true
          · rw [enumSerLoop, if_neg h1] at hd
            simp only [if_neg hA, if_pos h64, List.mem_cons] at hd
            rcases hd with rfl | hd
            · rfl
            · exact ih (e :: processed) d hd
          · rw [enumSerLoop, if_neg h1] at hd
            simp only [if_neg hA, if_neg h64, List.mem_cons] at hd
            rcases hd with rfl | hd
            · rfl
            · exact ih (e :: processed) d hd

theorem map_declName_mk {g : String → Decl} (hg : ∀ x, (g x).declName = x) :
    ∀ names : List String, (names.map g).map Decl.declName = names := by
  intro names
  induction names with
  | nil => rfl
  | cons a t ih => simp [hg, ih]

theorem flagMarkerDecls_tags (s : EnumJsonState) :
    ∀ d ∈ flagMarkerDecls s, sectionTag d = 0 := by
  rw [flagMarkerDecls_eq]
  intro d hd
  rcases List.mem_map.mp hd with ⟨x, _, rfl⟩
  rfl

theorem enumMarkerDecls_tags (s : EnumJsonState) :
    ∀ d ∈ enumMarkerDecls s, sectionTag d = 1 := by
  rw [enumMarkerDecls_eq]
  intro d hd
  rcases List.mem_map.mp hd with ⟨x, _, rfl⟩
  rfl

theorem flagSerDecls_tags (s : EnumJsonState) :
    ∀ d ∈ flagSerDecls s, sectionTag d = 3 := by
  rw [flagSerDecls_eq]
  intro d hd
  rcases List.mem_map.mp hd with ⟨x, _, rfl⟩
  rfl

theorem pairwise_tag_const :
    ∀ (L : List Decl) (c : Nat), (∀ d ∈ L, sectionTag d = c) →
      L.Pairwise (fun a b => sectionTag a ≤ sectionTag b)
  | [], _, _ => List.Pairwise.nil
  | a :: t, c, h =>
      List.Pairwise.cons
        (fun b hb => by
          rw [h a (List.mem_cons_self _ _), h b (List.mem_cons_of_mem _ hb)])
        (pairwise_tag_const t c (fun d hd => h d (List.mem_cons_of_mem _ hd)))

theorem filter_tag_all (t : Nat) :
    ∀ L : List Decl, (∀ d ∈ L, sectionTag d = t) →
      L.filter (fun d => sectionTag d == t) = L := by
  intro L hL
  apply List.filter_eq_self.mpr
  intro d hd
  simp [hL d hd]

theorem filter_tag_none (t : Nat) :
    ∀ L : List Decl, (∀ d ∈ L, sectionTag d ≠ t) →
      L.filter (fun d => sectionTag d == t) = [] := by
  intro L hL
  apply List.filter_eq_nil_iff.mpr
  intro d hd
  simp [hL d hd]

theorem seg_filter_length (g : String → Decl) (p : Decl → Bool) (q : String → Bool)
    (hpg : ∀ x, p (g x) = q x) (names : List String) :
    ((names.map g).filter p).length = (names.filter q).length := by
  rw [List.filter_map]
  simp only [List.length_map]
  congr 1
  exact List.filter_congr (fun x _ => hpg x)

theorem length_filter_beq_eq_count (n : String) (l : List String) :
    (l.filter (fun x => x == n)).length = l.count n := by
  rw [← List.countP_eq_length_filter]
  rfl

theorem length_filter_false (l : List String) :
    (l.filter (fun _ => false)).length = 0 := by
  induction l with
  | nil => rfl
  | cons a t ih => simp [List.filter_cons, ih]

theorem strSort_nodup {l : List String} (h : l.Nodup) : (strSort l).Nodup :=
  ((List.perm_insertionSort _ l).symm).nodup h

theorem not_mem_flagKeyNames_of_alias {s : EnumJsonState} {a : String}
    (h : a ∈ s.flags_type_aliases) : a ∉ flagKeyNames s := by
  intro hm
  rcases List.mem_filter.mp hm with ⟨_, hpred⟩
  simp [h] at hpred

theorem not_mem_flagKeyNames_of_not_key {s : EnumJsonState} {a : String}
    (h : a ∉ s.flags_types.map Prod.fst) : a ∉ flagKeyNames s := by
  intro hm
  rcases List.mem_filter.mp hm with ⟨hmem, _⟩
  exact h (by simpa [strSort] using hmem)

theorem not_mem_enum_filter_of_not_enum {s : EnumJsonState} {a : String}
    {q : String → Bool} (h : a ∉ s.enum_names) :
    a ∉ (strSort s.enum_names).filter q := by
  intro hm
  rcases List.mem_filter.mp hm with ⟨hmem, _⟩
  exact h (by simpa [strSort] using hmem)

theorem not_mem_enumSerNames_of_alias {s : EnumJsonState} {a : String}
    (h : a ∈ s.enumAliases) : a ∉ enumSerNames s := by
  intro hm
  rcases List.mem_filter.mp hm with ⟨_, hpred⟩
  simp [h] at hpred

theorem not_mem_enumMarkerNames_of_alias {s : EnumJsonState} {a : String}
    (h : a ∈ s.enumAliases) : a ∉ enumMarkerNames s := by
  intro hm
  rcases List.mem_filter.mp hm with ⟨_, hpred⟩
  simp [h] at hpred

theorem mem_flagKeyNames {s : EnumJsonState} {f : String}
    (hf : f ∈ s.flags_types.map Prod.fst) (hna : f ∉ s.flags_type_aliases) :
    f ∈ flagKeyNames s :=
  List.mem_filter.mpr ⟨by simpa [strSort] using hf, by simp [hna]⟩

theorem mem_enumSerNames {s : EnumJsonState} {e : String}
    (he : e ∈ s.enum_names) (hna : e ∉ s.enumAliases) : e ∈ enumSerNames s :=
  List.mem_filter.mpr ⟨by simpa [strSort] using he, by simp [hna]⟩

theorem mem_enumMarkerNames {s : EnumJsonState} {e : String}
    (he : e ∈ s.enum_names) (hna : e ∉ s.enumAliases)
    (h64 : is_flags_enum_64bit s e = true) : e ∈ enumMarkerNames s :=
  List.mem_filter.mpr ⟨by simpa [strSort] using he, by simp [hna, h64]⟩

theorem flagKeyNames_nodup {s : EnumJsonState}
    (h : (s.flags_types.map Prod.fst).Nodup) : (flagKeyNames s).Nodup :=
  (strSort_nodup h).filter _

theorem enumSerNames_nodup {s : EnumJsonState}
    (h : s.enum_names.Nodup) : (enumSerNames s).Nodup :=
  (strSort_nodup h).filter _

theorem enumMarkerNames_nodup {s : EnumJsonState}
    (h : s.enum_names.Nodup) : (enumMarkerNames s).Nodup :=
  (strSort_nodup h).filter _

theorem not_mem_enumMarkerNames_of_not_enum {s : EnumJsonState} {a : String}
    (h : a ∉ s.enum_names) : a ∉ enumMarkerNames s :=
  not_mem_enum_filter_of_not_enum h

theorem not_mem_enumSerNames_of_not_enum {s : EnumJsonState} {a : String}
    (h : a ∉ s.enum_names) : a ∉ enumSerNames s :=
  not_mem_enum_filter_of_not_enum h

theorem emissionsFor_make_decls (s : EnumJsonState) (hnd : s.enum_names.Nodup)
    (hp : s.processedEnums = []) (n : String) :
    emissionsFor n (make_decls_decls s)
      = (((flagKeyNames s).count n + (enumMarkerNames s).count n)
          + (enumSerNames s).count n) + (flagKeyNames s).count n := by
  unfold emissionsFor
  rw [make_decls_decls_eq s hnd hp]
  rw [List.filter_append, List.filter_append, List.filter_append,
      List.length_append, List.length_append, List.length_append]
  rw [seg_filter_length Decl.flagMarker _ (fun x => x == n) (fun x => rfl),
      seg_filter_length Decl.enumMarker _ (fun x => x == n) (fun x => rfl),
      seg_filter_length _ _ (fun x => x == n)
        (fun x => by
          by_cases h : is_flags_enum_64bit s x = true <;>
            simp [h, Decl.declName]),
      seg_filter_length _ _ (fun x => x == n) (fun x => rfl),
      length_filter_beq_eq_count, length_filter_beq_eq_count,
      length_filter_beq_eq_count]

theorem serializersFor_make_decls (s : EnumJsonState) (hnd : s.enum_names.Nodup)
    (hp : s.processedEnums = []) (n : String) :
    serializersFor n (make_decls_decls s)
      = (enumSerNames s).count n + (flagKeyNames s).count n := by
  unfold serializersFor
  rw [make_decls_decls_eq s hnd hp]
  rw [List.filter_append, List.filter_append, List.filter_append,
      List.length_append, List.length_append, List.length_append]
  rw [seg_filter_length Decl.flagMarker _ (fun _ => false)
        (fun x => by simp [Decl.declName, Decl.isSerializer]),
      seg_filter_length Decl.enumMarker _ (fun _ => false)
        (fun x => by simp [Decl.declName, Decl.isSerializer]),
      seg_filter_length _ _ (fun x => x == n)
        (fun x => by
          by_cases h : is_flags_enum_64bit s x = true <;>
            simp [h, Decl.declName, Decl.isSerializer]),
      seg_filter_length _ _ (fun x => x == n)
        (fun x => by simp [Decl.declName, Decl.isSerializer]),
      length_filter_false, length_filter_false,
      length_filter_beq_eq_count, length_filter_beq_eq_count]
  omega

theorem markersFor_make_decls (s : EnumJsonState) (hnd : s.enum_names.Nodup)
    (hp : s.processedEnums = []) (n : String) :
    markersFor n (make_decls_decls s)
      = (flagKeyNames s).count n + (enumMarkerNames s).count n := by
  unfold markersFor
  rw [make_decls_decls_eq s hnd hp]
  rw [List.filter_append, List.filter_append, List.filter_append,
      List.length_append, List.length_append, List.length_append]
  rw [seg_filter_length Decl.flagMarker _ (fun x => x == n)
        (fun x => by simp [Decl.declName, Decl.isMarker]),
      seg_filter_length Decl.enumMarker _ (fun x => x == n)
        (fun x => by simp [Decl.declName, Decl.isMarker]),
      seg_filter_length _ _ (fun _ => false)
        (fun x => by
          by_cases h : is_flags_enum_64bit s x = true <;>
            simp [h, Decl.declName, Decl.isMarker]),
      seg_filter_length _ _ (fun _ => false)
        (fun x => by simp [Decl.declName, Decl.isMarker]),
      length_filter_false, length_filter_false,
      length_filter_beq_eq_count, length_filter_beq_eq_count]
  omega

/-- C10: in the Enum Serializer output the sections appear in the fixed
order flag-type markers, 64-bit-flags-enum markers, enum serializers,
flag-type serializers (the section index never decreases along the output),
and within every section the emitted names are in ascending lexicographic
order. -/
theorem C10_section_order (s : EnumJsonState) :
    ((make_decls_decls s).map sectionTag).Sorted (fun a b => a ≤ b)
    ∧ (((make_decls_decls s).filter (fun d => sectionTag d == 0)).map
        Decl.declName).Sorted (fun a b => a ≤ b)
    ∧ (((make_decls_decls s).filter (fun d => sectionTag d == 1)).map
        Decl.declName).Sorted (fun a b => a ≤ b)
    ∧ (((make_decls_decls s).filter (fun d => sectionTag d == 2)).map
        Decl.declName).Sorted (fun a b => a ≤ b)
    ∧ (((make_decls_decls s).filter (fun d => sectionTag d == 3)).map
        Decl.declName).Sorted (fun a b => a ≤ b) := by
  have hA := flagMarkerDecls_tags s
  have hB := enumMarkerDecls_tags s
  have hC := enumSerLoop_tags s (strSort s.enum_names) s.processedEnums
  have hD := flagSerDecls_tags s
  unfold make_decls_decls
  refine ⟨?_, ?_, ?_, ?_, ?_⟩
  · show List.Pairwise _ _
    rw [List.pairwise_map, List.append_assoc, List.append_assoc]
    refine List.pairwise_append.mpr ⟨pairwise_tag_const _ 0 hA,
      List.pairwise_append.mpr ⟨pairwise_tag_const _ 1 hB,
        List.pairwise_append.mpr ⟨pairwise_tag_const _ 2 hC,
          pairwise_tag_const _ 3 hD, ?_⟩, ?_⟩, ?_⟩
    · intro a ha b hb
      rw [hC a ha, hD b hb]
      decide
    · intro a ha b hb
      rw [hB a ha]
      rcases List.mem_append.mp hb with h | h
      · rw [hC b h]; decide
      · rw [hD b h]; decide
    · intro a ha b hb
      rw [hA a ha]
      exact Nat.zero_le _
  · rw [List.filter_append, List.filter_append, List.filter_append,
      filter_tag_all 0 _ hA,
      filter_tag_none 0 _ (fun d hd => by rw [hB d hd]; decide),
      filter_tag_none 0 _ (fun d hd => by rw [hC d hd]; decide),
      filter_tag_none 0 _ (fun d hd => by rw [hD d hd]; decide),
      List.append_nil, List.append_nil, List.append_nil,
      flagMarkerDecls_eq, @map_declName_mk Decl.flagMarker (fun _ => rfl)]
    exact flagKeyNames_sorted s
  · rw [List.filter_append, List.filter_append, List.filter_append,
      filter_tag_none 1 _ (fun d hd => by rw [hA d hd]; decide),
      filter_tag_all 1 _ hB,
      filter_tag_none 1 _ (fun d hd => by rw [hC d hd]; decide),
      filter_tag_none 1 _ (fun d hd => by rw [hD d hd]; decide),
      List.nil_append, List.append_nil, List.append_nil,
      enumMarkerDecls_eq, @map_declName_mk Decl.enumMarker (fun _ => rfl)]
    exact enumMarkerNames_sorted s
  · rw [List.filter_append, List.filter_append, List.filter_append,
      filter_tag_none 2 _ (fun d hd => by rw [hA d hd]; decide),
      filter_tag_none 2 _ (fun d hd => by rw [hB d hd]; decide),
      filter_tag_all 2 _ hC,
      filter_tag_none 2 _ (fun d hd => by rw [hD d hd]; decide),
      List.nil_append, List.nil_append, List.append_nil]
    exact List.Pairwise.sublist
      (enumSerLoop_names_sublist s (strSort s.enum_names) s.processedEnums)
      (strSort_sorted s.enum_names)
  · rw [List.filter_append, List.filter_append, List.filter_append,
      filter_tag_none 3 _ (fun d hd => by rw [hA d hd]; decide),
      filter_tag_none 3 _ (fun d hd => by rw [hB d hd]; decide),
      filter_tag_none 3 _ (fun d hd => by rw [hC d hd]; decide),
      filter_tag_all 3 _ hD,
      List.nil_append, List.nil_append, List.nil_append,
      flagSerDecls_eq,
      @map_declName_mk (fun f => Decl.flagsToJson f (flagsTypeOf s f)) (fun _ => rfl)]
    exact flagKeyNames_sorted s

theorem flagKeyNames_sub {s : EnumJsonState} {f : String}
    (h : f ∈ flagKeyNames s) : f ∈ s.flags_types.map Prod.fst := by
  rcases List.mem_filter.mp h with ⟨hm, _⟩
  simpa [strSort] using hm

theorem enumSerNames_sub {s : EnumJsonState} {e : String}
    (h : e ∈ enumSerNames s) : e ∈ s.enum_names := by
  rcases List.mem_filter.mp h with ⟨hm, _⟩
  simpa [strSort] using hm

theorem not_mem_enumMarkerNames_of_not64 {s : EnumJsonState} {e : String}
    (h : is_flags_enum_64bit s e = false) : e ∉ enumMarkerNames s := by
  intro hm
  rcases List.mem_filter.mp hm with ⟨_, hpred⟩
  simp [h] at hpred

theorem mem_make_decls (s : EnumJsonState) (hnd : s.enum_names.Nodup)
    (hp : s.processedEnums = []) {d : Decl} (hd : d ∈ make_decls_decls s) :
    (∃ f ∈ flagKeyNames s, d = Decl.flagMarker f)
    ∨ (∃ e ∈ enumMarkerNames s, d = Decl.enumMarker e)
    ∨ (∃ e ∈ enumSerNames s,
        d = (if is_flags_enum_64bit s e then Decl.enumToJson64 e
             else Decl.enumToJson e))
    ∨ (∃ f ∈ flagKeyNames s, d = Decl.flagsToJson f (flagsTypeOf s f)) := by
  rw [make_decls_decls_eq s hnd hp] at hd
  rcases List.mem_append.mp hd with h3 | h3
  · rcases List.mem_append.mp h3 with h2 | h2
    · rcases List.mem_append.mp h2 with h1 | h1
      · rcases List.mem_map.mp h1 with ⟨f, hf, rfl⟩
        exact Or.inl ⟨f, hf, rfl⟩
      · rcases List.mem_map.mp h1 with ⟨e, he, rfl⟩
        exact Or.inr (Or.inl ⟨e, he, rfl⟩)
    · rcases List.mem_map.mp h2 with ⟨e, he, rfl⟩
      exact Or.inr (Or.inr (Or.inl ⟨e, he, rfl⟩))
  · rcases List.mem_map.mp h3 with ⟨f, hf, rfl⟩
    exact Or.inr (Or.inr (Or.inr ⟨f, hf, rfl⟩))

/-- C1 counterexample: `VkSampleFlags` is a FlagType all of whose defined
values fit in 32 bits, yet `make_decls` emits a marker-type declaration for
it and its serializer overload takes the marker as first parameter —
contradicting the claim that 32-bit FlagTypes get no marker. -/
theorem C1_counterexample :
    ((c1State.bit_values "VkSampleFlags").all (fun v => v < 2 ^ 32) = true)
    ∧ Decl.flagMarker "VkSampleFlags" ∈ make_decls_decls c1State
    ∧ Decl.flagsToJson "VkSampleFlags" "VkFlags" ∈ make_decls_decls c1State
    ∧ Decl.takesMarkerFirst (Decl.flagsToJson "VkSampleFlags" "VkFlags") = true := by
  decide

/-- C1 (amended): every non-aliased FlagType — regardless of its computed
width class — gets exactly one marker-type declaration, and every serializer
declaration bearing its name takes the marker as first parameter; a
non-aliased 64-bit flags Enum likewise gets exactly one marker and a
marker-first serializer; an Enum that is not a 64-bit flags enum gets no
marker declaration and its serializer never takes a marker parameter. -/
theorem C1_marker_policy (s : EnumJsonState) (hW : WF s)
    (hp : s.processedEnums = []) :
    (∀ f ∈ s.flags_types.map Prod.fst, f ∉ s.flags_type_aliases →
        markersFor f (make_decls_decls s) = 1
        ∧ ∀ d ∈ make_decls_decls s, d.declName = f → d.isSerializer = true →
            d.takesMarkerFirst = true)
    ∧ (∀ e ∈ s.enum_names, e ∉ s.enumAliases → is_flags_enum_64bit s e = true →
        markersFor e (make_decls_decls s) = 1
        ∧ ∀ d ∈ make_decls_decls s, d.declName = e → d.isSerializer = true →
            d.takesMarkerFirst = true)
    ∧ (∀ e ∈ s.enum_names, is_flags_enum_64bit s e = false →
        markersFor e (make_decls_decls s) = 0
        ∧ ∀ d ∈ make_decls_decls s, d.declName = e → d.isSerializer = true →
            d.takesMarkerFirst = false) := by
  refine ⟨?_, ?_, ?_⟩
  · intro f hf hna
    constructor
    · rw [markersFor_make_decls s hW.enumNodup hp,
          List.count_eq_one_of_mem (flagKeyNames_nodup hW.flagKeysNodup)
            (mem_flagKeyNames hf hna),
          List.count_eq_zero.mpr
            (not_mem_enumMarkerNames_of_not_enum (hW.flagEnumDisjoint f hf))]
    · intro d hd hname hser
      rcases mem_make_decls s hW.enumNodup hp hd with
        ⟨x, _, rfl⟩ | ⟨x, _, rfl⟩ | ⟨x, hx, rfl⟩ | ⟨x, _, rfl⟩
      · simp [Decl.isSerializer] at hser
      · simp [Decl.isSerializer] at hser
      · exfalso
        have hxn : x = f := by
          by_cases h64 : is_flags_enum_64bit s x = true <;>
            simpa [h64, Decl.declName] using hname
        exact hW.flagEnumDisjoint f hf (hxn ▸ enumSerNames_sub hx)
      · rfl
  · intro e he hna h64
    constructor
    · rw [markersFor_make_decls s hW.enumNodup hp,
          List.count_eq_zero.mpr
            (not_mem_flagKeyNames_of_not_key
              (fun hk => hW.flagEnumDisjoint e hk he)),
          List.count_eq_one_of_mem (enumMarkerNames_nodup hW.enumNodup)
            (mem_enumMarkerNames he hna h64)]
    · intro d hd hname hser
      rcases mem_make_decls s hW.enumNodup hp hd with
        ⟨x, _, rfl⟩ | ⟨x, _, rfl⟩ | ⟨x, hx, rfl⟩ | ⟨x, _, rfl⟩
      · simp [Decl.isSerializer] at hser
      · simp [Decl.isSerializer] at hser
      · have hxn : x = e := by
          by_cases hx64 : is_flags_enum_64bit s x = true <;>
            simpa [hx64, Decl.declName] using hname
        subst hxn
        simp [h64, Decl.takesMarkerFirst]
      · rfl
  · intro e he h64
    constructor
    · rw [markersFor_make_decls s hW.enumNodup hp,
          List.count_eq_zero.mpr
            (not_mem_flagKeyNames_of_not_key
              (fun hk => hW.flagEnumDisjoint e hk he)),
          List.count_eq_zero.mpr (not_mem_enumMarkerNames_of_not64 h64)]
    · intro d hd hname hser
      rcases mem_make_decls s hW.enumNodup hp hd with
        ⟨x, _, rfl⟩ | ⟨x, _, rfl⟩ | ⟨x, hx, rfl⟩ | ⟨x, hx, rfl⟩
      · simp [Decl.isSerializer] at hser
      · simp [Decl.isSerializer] at hser
      · have hxn : x = e := by
          by_cases hx64 : is_flags_enum_64bit s x = true <;>
            simpa [hx64, Decl.declName] using hname
        subst hxn
        simp [h64, Decl.takesMarkerFirst]
      · exfalso
        have hxn : x = e := by simpa [Decl.declName] using hname
        exact hW.flagEnumDisjoint e (hxn ▸ flagKeyNames_sub hx) he

/-- C1 witness: on `wfState`, the canonical 32-bit flag type `VkAFlags` and
the canonical 64-bit flags enum `VkBFlagBits2` each have exactly one marker,
and the plain enum `VkColor` has none. -/
theorem C1_witness :
    markersFor "VkAFlags" (make_decls_decls wfState) = 1
    ∧ markersFor "VkBFlagBits2" (make_decls_decls wfState) = 1
    ∧ markersFor "VkColor" (make_decls_decls wfState) = 0 :=
  have hW : WF wfState := ⟨by decide, by decide, by decide, by decide, by decide⟩
  have h := C1_marker_policy wfState hW rfl
  ⟨(h.1 "VkAFlags" (by decide) (by decide)).1,
   (h.2.1 "VkBFlagBits2" (by decide) (by decide) (by decide)).1,
   (h.2.2 "VkColor" (by decide) (by decide)).1⟩

theorem strSort_eq_of_perm {l1 l2 : List String} (h : List.Perm l1 l2) :
    strSort l1 = strSort l2 :=
  List.eq_of_perm_of_sorted
    ((List.perm_insertionSort _ l1).trans
      (h.trans (List.perm_insertionSort _ l2).symm))
    (List.sorted_insertionSort _ l1) (List.sorted_insertionSort _ l2)

theorem lookup_eq_of_perm {l1 l2 : List (String × String)}
    (h : List.Perm l1 l2) :
    ∀ (hk : (l1.map Prod.fst).Nodup) (a : String),
      l1.lookup a = l2.lookup a := by
  induction h with
  | nil => intro _ _; rfl
  | cons p t ih =>
      intro hk a
      rcases p with ⟨k, v⟩
      by_cases hak : (a == k) = true
      · simp [List.lookup, hak]
      · simp only [List.lookup, hak]
        exact ih (List.nodup_cons.mp (by simpa using hk)).2 a
  | swap x y t =>
      intro hk a
      rcases x with ⟨xk, xv⟩
      rcases y with ⟨yk, yv⟩
      have hne : yk ≠ xk := by
        have h1 : (yk :: xk :: t.map Prod.fst).Nodup := by simpa using hk
        have h2 := (List.nodup_cons.mp h1).1
        intro hcontra
        exact h2 (by simp [hcontra])
      by_cases hay : (a == yk) = true
      · have hax : (a == xk) = false := by
          rcases beq_iff_eq.mp hay with rfl
          exact beq_eq_false_iff_ne.mpr hne
        simp [List.lookup, hay, hax]
      · by_cases hax : (a == xk) = true
        · simp [List.lookup, hay, hax]
        · simp [List.lookup, hay, hax]
  | trans h1 _ ih1 ih2 =>
      intro hk a
      rw [ih1 hk a, ih2 ((h1.map Prod.fst).nodup hk) a]

theorem filterMap_congr_mem {α β : Type} {f g : α → Option β} :
    ∀ (l : List α), (∀ x ∈ l, f x = g x) → l.filterMap f = l.filterMap g
  | [], _ => rfl
  | a :: t, h => by
      rw [List.filterMap_cons, List.filterMap_cons, h a (List.mem_cons_self _ _),
        filterMap_congr_mem t (fun x hx => h x (List.mem_cons_of_mem _ hx))]

theorem enumSerLoop_congr (s1 s2 : EnumJsonState)
    (hea : ∀ n, n ∈ s1.enumAliases ↔ n ∈ s2.enumAliases)
    (hbv : s1.bit_values = s2.bit_values) :
    ∀ (l processed : List String),
      enumSerLoop s1 processed l = enumSerLoop s2 processed l := by
  intro l
  induction l with
  | nil => intro processed; rfl
  | cons e rest ih =>
      intro processed
      have h64 : is_flags_enum_64bit s1 e = is_flags_enum_64bit s2 e := by
        unfold is_flags_enum_64bit
        rw [hbv]
      by_cases h1 : e ∈ processed ∨ e ∈ SKIP_ENUM
      · simp only [enumSerLoop, if_pos h1]
        exact ih processed
      · by_cases hA : e ∈ s1.enumAliases
        · have hA2 : e ∈ s2.enumAliases := (hea e).mp hA
          simp only [enumSerLoop, if_neg h1, if_pos hA, if_pos hA2]
          exact ih (e :: processed)
        · have hA2 : e ∉ s2.enumAliases := fun h => hA ((hea e).mpr h)
          simp only [enumSerLoop, if_neg h1, if_neg hA, if_neg hA2, h64,
            ih (e :: processed)]

/-- C3: Enum Serializer generation is a function of the registry content
alone: two runs over the same registry collections presented in different
incidental container orders — with the backend-local emitted set in the same
state — produce identical structured output and a byte-identical rendered
artifact, because every otherwise-unordered collection is iterated through
an explicit ascending lexicographic sort. -/
theorem C3_determinism (ch : List String) (s1 s2 : EnumJsonState)
    (hft : List.Perm s1.flags_types s2.flags_types)
    (hfa : ∀ n, n ∈ s1.flags_type_aliases ↔ n ∈ s2.flags_type_aliases)
    (hen : List.Perm s1.enum_names s2.enum_names)
    (hea : ∀ n, n ∈ s1.enumAliases ↔ n ∈ s2.enumAliases)
    (hbv : s1.bit_values = s2.bit_values)
    (hk : (s1.flags_types.map Prod.fst).Nodup)
    (hpe : s1.processedEnums = s2.processedEnums) :
    (enumJson_run ch s1).2 = (enumJson_run ch s2).2
    ∧ renderArtifact (enumJson_run ch s1).2
        = renderArtifact (enumJson_run ch s2).2 := by
  have hkeys : strSort (s1.flags_types.map Prod.fst)
      = strSort (s2.flags_types.map Prod.fst) :=
    strSort_eq_of_perm (hft.map Prod.fst)
  have henum : strSort s1.enum_names = strSort s2.enum_names :=
    strSort_eq_of_perm hen
  have hfad : ∀ x (v : Decl),
      (if x ∈ s1.flags_type_aliases then none else some v)
        = (if x ∈ s2.flags_type_aliases then none else some v) := by
    intro x v
    by_cases hx : x ∈ s1.flags_type_aliases
    · rw [if_pos hx, if_pos ((hfa x).mp hx)]
    · rw [if_neg hx, if_neg (fun h => hx ((hfa x).mpr h))]
  have hseg1 : flagMarkerDecls s1 = flagMarkerDecls s2 := by
    unfold flagMarkerDecls
    rw [hkeys]
    exact filterMap_congr_mem _ (fun x _ => hfad x _)
  have hseg2 : enumMarkerDecls s1 = enumMarkerDecls s2 := by
    unfold enumMarkerDecls
    rw [henum]
    refine filterMap_congr_mem _ (fun x _ => ?_)
    have h64 : is_flags_enum_64bit s1 x = is_flags_enum_64bit s2 x := by
      unfold is_flags_enum_64bit
      rw [hbv]
    by_cases hx : x ∈ s1.enumAliases
    · rw [if_pos hx, if_pos ((hea x).mp hx)]
    · rw [if_neg hx, if_neg (fun h => hx ((hea x).mpr h)), h64]
  have hseg3 : (enumSerLoop s1 s1.processedEnums (strSort s1.enum_names)).2
      = (enumSerLoop s2 s2.processedEnums (strSort s2.enum_names)).2 := by
    rw [henum, hpe, enumSerLoop_congr s1 s2 hea hbv]
  have hloopSt : (enumSerLoop s1 s1.processedEnums (strSort s1.enum_names)).1
      = (enumSerLoop s2 s2.processedEnums (strSort s2.enum_names)).1 := by
    rw [henum, hpe, enumSerLoop_congr s1 s2 hea hbv]
  have hseg4 : flagSerDecls s1 = flagSerDecls s2 := by
    unfold flagSerDecls
    rw [hkeys]
    refine filterMap_congr_mem _ (fun x _ => ?_)
    have hty : flagsTypeOf s1 x = flagsTypeOf s2 x := by
      unfold flagsTypeOf
      rw [lookup_eq_of_perm hft hk x]
    rw [hty]
    exact hfad x _
  have hlines : (enumJson_run ch s1).2 = (enumJson_run ch s2).2 := by
    simp only [enumJson_run, enumJson_beginFile, enumJson_endFile,
      make_decls_state, hseg1, hseg2, hseg3, hseg4]
  exact ⟨hlines, by rw [hlines]⟩

/-- C3 witness: the registries of `detState1` and `detState2` hold the same
collections in different incidental orders, and the two runs produce the
same artifact lines. -/
theorem C3_witness :
    (enumJson_run ["vulkan/vulkan.h"] detState1).2
      = (enumJson_run ["vulkan/vulkan.h"] detState2).2 :=
  (C3_determinism ["vulkan/vulkan.h"] detState1 detState2
    (by decide) (fun n => Iff.rfl) (by decide) (fun n => Iff.rfl)
    rfl (by decide) rfl).1

/-- C4: in a `make_decls` run starting from an empty emitted set, an entity
name carried in `flags_type_aliases` or `enumAliases` receives no emission of
any kind, while every canonical (non-aliased) flag-type key and every
canonical enum name receives exactly one serializer declaration, however many
features or extensions contributed the name to the accumulated (set-valued,
hence deduplicated) collections. -/
theorem C4_alias_exclusivity (s : EnumJsonState) (hW : WF s)
    (hp : s.processedEnums = []) :
    (∀ a ∈ s.flags_type_aliases, emissionsFor a (make_decls_decls s) = 0)
    ∧ (∀ a ∈ s.enumAliases, emissionsFor a (make_decls_decls s) = 0)
    ∧ (∀ f ∈ s.flags_types.map Prod.fst, f ∉ s.flags_type_aliases →
        serializersFor f (make_decls_decls s) = 1)
    ∧ (∀ e ∈ s.enum_names, e ∉ s.enumAliases →
        serializersFor e (make_decls_decls s) = 1) := by
  refine ⟨?_, ?_, ?_, ?_⟩
  · intro a ha
    rw [emissionsFor_make_decls s hW.enumNodup hp,
        List.count_eq_zero.mpr (not_mem_flagKeyNames_of_alias ha),
        List.count_eq_zero.mpr
          (not_mem_enumMarkerNames_of_not_enum (hW.flagAliasNotEnum a ha)),
        List.count_eq_zero.mpr
          (not_mem_enumSerNames_of_not_enum (hW.flagAliasNotEnum a ha))]
  · intro a ha
    rw [emissionsFor_make_decls s hW.enumNodup hp,
        List.count_eq_zero.mpr
          (not_mem_flagKeyNames_of_not_key (hW.enumAliasNotFlagKey a ha)),
        List.count_eq_zero.mpr (not_mem_enumMarkerNames_of_alias ha),
        List.count_eq_zero.mpr (not_mem_enumSerNames_of_alias ha)]
  · intro f hf hna
    rw [serializersFor_make_decls s hW.enumNodup hp,
        List.count_eq_zero.mpr
          (not_mem_enumSerNames_of_not_enum (hW.flagEnumDisjoint f hf)),
        List.count_eq_one_of_mem (flagKeyNames_nodup hW.flagKeysNodup)
          (mem_flagKeyNames hf hna)]
  · intro e he hna
    rw [serializersFor_make_decls s hW.enumNodup hp,
        List.count_eq_one_of_mem (enumSerNames_nodup hW.enumNodup)
          (mem_enumSerNames he hna),
        List.count_eq_zero.mpr
          (not_mem_flagKeyNames_of_not_key
            (fun hk => hW.flagEnumDisjoint e hk he))]

/-- C4 witness: on the concrete well-formed state `wfState`, the aliased
flag type `VkZFlags` and the aliased enum `VkColorKHR` are never emitted,
while the canonical `VkAFlags` and `VkColor` each get exactly one
serializer. -/
theorem C4_witness :
    emissionsFor "VkZFlags" (make_decls_decls wfState) = 0
    ∧ emissionsFor "VkColorKHR" (make_decls_decls wfState) = 0
    ∧ serializersFor "VkAFlags" (make_decls_decls wfState) = 1
    ∧ serializersFor "VkColor" (make_decls_decls wfState) = 1 :=
  have hW : WF wfState := ⟨by decide, by decide, by decide, by decide, by decide⟩
  have h := C4_alias_exclusivity wfState hW rfl
  ⟨h.1 "VkZFlags" (by decide), h.2.1 "VkColorKHR" (by decide),
   h.2.2.1 "VkAFlags" (by decide) (by decide),
   h.2.2.2 "VkColor" (by decide) (by decide)⟩

end GfxGen
